import Mathlib

/-!
Verification of the cisco-perfmon client library (src/main.js) against its
natural-language specification.

Strings are modelled as `List Char` (JS strings), parsed XML trees as the
`JVal` inductive (the output of xml2js with `explicitArray: false` after
`removeKeys(output, "$")`), and the per-operation response handlers as pure
functions from the parsed tree (plus HTTP status and the `set-cookie` header)
to a settled promise outcome.
-/

/-- Character list of a Lean string literal; used to transcribe the JS string
literals of src/main.js. -/
def chars (s : String) : List Char := s.data

/-- Separator predicate for `"\\"` used by `item.Name.split("\\")`
(src/main.js line 192). -/
def isBackslash (c : Char) : Bool := c = '\\'

/-- Separator predicate for the regex `/[()]+/` used by
`arr[1].split(/[()]+/)` (src/main.js line 194).  The regex splits on maximal
runs of parentheses; since the code filters out empty segments right after the
split, splitting on single parenthesis characters and filtering is
equivalent. -/
def isParen (c : Char) : Bool := c = '(' || c = ')'

/-- JS `String.prototype.split` with a single-character (class) separator:
`"a\\b".split("\\") = ["a","b"]`, `"\\x".split("\\") = ["","x"]`. -/
def splitP (p : Char → Bool) : List Char → List (List Char)
  | [] => [[]]
  | c :: rest =>
    if p c then [] :: splitP p rest
    else
      match splitP p rest with
      | [] => [[c]]
      | s :: ss => (c :: s) :: ss

/-- `item.Name.split("\\").filter((element) => element)` — split on backslash
and drop falsy (empty) segments (src/main.js line 192). -/
def splitName (name : List Char) : List (List Char) :=
  (splitP isBackslash name).filter (fun s => !s.isEmpty)

/-- `arr[1].split(/[()]+/).filter(function (e) { return e; })`
(src/main.js lines 194-196). -/
def splitInst (seg : List Char) : List (List Char) :=
  (splitP isParen seg).filter (fun s => !s.isEmpty)

/-- JS `x ? x : ""` applied to a possibly-undefined string
(`instanceArr[1] ? instanceArr[1] : ""`, src/main.js line 201). -/
def truthyGet : Option (List Char) → List Char
  | some l => if l.isEmpty then [] else l
  | none => []

/-- A structured counter reference as supplied by callers to
`addCounter` / `removeCounter` / `queryCounterDescription`.  The JS object
fields are `host`, `object`, `instance`, `counter`; an absent or empty
`instance` is modelled as `[]` (both are falsy in the JS truthiness test). -/
structure CounterRef where
  host : List Char
  object : List Char
  inst : List Char
  counter : List Char
deriving DecidableEq, Repr

/-- `counter.instance ? `${counter.object}(${counter.instance})` :
counter.object` (src/main.js line 767 and friends). -/
def objInstOf (c : CounterRef) : List Char :=
  if c.inst.isEmpty then c.object else c.object ++ '(' :: (c.inst ++ [')'])

/-- The encoded counter path
`"\\\\" + host + "\\" + objInst + "\\" + counter` built by
`addCounter` / `removeCounter` / `queryCounterDescription`
(src/main.js lines 766-770, 862-866, 956).  The JS literal `"\\\\"` is the
two-character string of two backslashes and `"\\"` a single backslash. -/
def encodePath (c : CounterRef) : List Char :=
  '\\' :: '\\' :: (c.host ++ '\\' :: (objInstOf c ++ '\\' :: c.counter))

/-- The four fields recovered from a counter path by `collectCounterData`
(src/main.js lines 198-205 / 214-221).  `none` models a field that JS would
set to `undefined` (an out-of-range array index). -/
structure DecodedName where
  host : Option (List Char)
  object : Option (List Char)
  inst : List Char
  counter : Option (List Char)
deriving DecidableEq, Repr

/-- Path decoding as performed by `collectCounterData` (src/main.js lines
208-221): split the path on backslashes, drop empty segments, split the
second segment on parentheses.  Returns `none` when the code throws: the only
throw point is `arr[1].split(...)` when `arr[1]` is `undefined`
(fewer than 2 non-empty segments). -/
def decodeName (name : List Char) : Option DecodedName :=
  match (splitName name).get? 1 with
  | none => none
  | some seg =>
    some { host := (splitName name).get? 0
           object := (splitInst seg).get? 0
           inst := truthyGet ((splitInst seg).get? 1)
           counter := (splitName name).get? 2 }

/-- Generic parsed-XML value tree: the result of `parseXml` (xml2js with
`explicitArray: false`, `explicitRoot: false`) after `removeKeys(output, "$")`.
`null` and `undefined` model the JS values `null` and `undefined`, which the
`clean` helper removes. -/
inductive JVal where
  | str : String → JVal
  | null : JVal
  | undefined : JVal
  | obj : List (String × JVal) → JVal
  | arr : List JVal → JVal

mutual
/-- The recursive deep key search `keyExists(obj, key)` (src/main.js lines
1044-1066): falsy and non-object values yield `false`; an own property wins;
otherwise every array element / object value is searched. -/
def keyExists : JVal → String → Bool
  | .obj fields, k => keOwn fields k || keFields fields k
  | .arr elems, k => keElems elems k
  | _, _ => false
/-- `obj.hasOwnProperty(key)` over the field list of an object. -/
def keOwn : List (String × JVal) → String → Bool
  | [], _ => false
  | (k2, _) :: rest, k => (k2 = k) || keOwn rest k
/-- The `for (const k in obj)` recursion of `keyExists` over object values. -/
def keFields : List (String × JVal) → String → Bool
  | [], _ => false
  | (_, v) :: rest, k => keyExists v k || keFields rest k
/-- The array loop of `keyExists` over array elements. -/
def keElems : List JVal → String → Bool
  | [], _ => false
  | v :: rest, k => keyExists v k || keElems rest k
end

/-- The removal test of `clean` (src/main.js line 1102):
`(v && typeof v === "object" && !Object.keys(v).length) || v === null ||
v === undefined` — empty object, empty array, `null` or `undefined`. -/
def isRemovable : JVal → Bool
  | .null => true
  | .undefined => true
  | .obj [] => true
  | .arr [] => true
  | _ => false

/-- One pass of `Object.entries(array).forEach` with `array.splice(k, 1)`
(src/main.js lines 1098-1109 in the array case): iterate over the snapshot of
(index, cleaned element) pairs, erasing the element at the snapshot index of
the *current* array whenever the snapshot element is removable.  `eraseIdx`
out of range is a no-op, exactly like `splice(k, 1)` with `k >= length`. -/
def spliceAux : List JVal → Nat → List JVal → List JVal
  | [], _, s => s
  | w :: todo, i, s => spliceAux todo (i + 1) (if isRemovable w then s.eraseIdx i else s)

/-- The full in-place array pruning pass of `clean`, on the snapshot of
already-cleaned elements. -/
def spliceRun (ws : List JVal) : List JVal := spliceAux ws 0 ws

mutual
/-- The recursive empty-field pruning `clean(object)` (src/main.js lines
1097-1111).  Each entry value is cleaned in place first; then removable
values are deleted — by key for objects, by (stale) snapshot index via
`splice` for arrays. -/
def cleanVal : JVal → JVal
  | .obj fields => .obj (cleanFields fields)
  | .arr elems => .arr (spliceRun (cleanElems elems))
  | v => v
/-- Object branch of `clean`: clean each value, drop entries whose cleaned
value is removable (deletion by key never shifts later entries). -/
def cleanFields : List (String × JVal) → List (String × JVal)
  | [] => []
  | (k, v) :: rest =>
    if isRemovable (cleanVal v) then cleanFields rest
    else (k, cleanVal v) :: cleanFields rest
/-- Clean every element of an array (the recursive `clean(v)` calls on the
snapshot); removal is done afterwards by `spliceRun`. -/
def cleanElems : List JVal → List JVal
  | [] => []
  | v :: rest => cleanVal v :: cleanElems rest
end

mutual
/-- Trees on which the array-splice pruning of `clean` is well behaved: every
array node contains at most one element whose cleaned value is removable.
(Two removable elements make the stale snapshot indices of
`Object.entries(...).forEach(... splice ...)` miss elements.) -/
def good : JVal → Bool
  | .obj fields => goodF fields
  | .arr elems => goodE elems && decide ((cleanElems elems).countP isRemovable ≤ 1)
  | _ => true
/-- All values of an object's field list are `good`. -/
def goodF : List (String × JVal) → Bool
  | [] => true
  | (_, v) :: rest => good v && goodF rest
/-- All elements of an array are `good`. -/
def goodE : List JVal → Bool
  | [] => true
  | v :: rest => good v && goodE rest
end

/-- JS property access `v[k]` at a throw-or-value point: reading a property
of `undefined` or `null` throws a TypeError (`.error ()`); reading a missing
property of any other value yields `undefined` (`none`); only objects carry
properties here (the handlers only use non-numeric string keys, which arrays
and strings do not have). -/
def jsGet : Option JVal → String → Except Unit (Option JVal)
  | none, _ => .error ()
  | some .null, _ => .error ()
  | some (.obj fields), k => .ok (List.lookup k fields)
  | some _, _ => .ok none

/-- JS method call `v.split(...)` / `v.includes(...)`: only a string value
succeeds; `undefined`, `null` and non-string values throw a TypeError. -/
def jsStr : Option JVal → Except Unit (List Char)
  | some (.str s) => .ok s.data
  | _ => .error ()

/-- An array-index read whose result is stored in an object literal field:
out of range gives the JS value `undefined`. -/
def strOfOpt : Option (List Char) → JVal
  | some l => .str (String.mk l)
  | none => .undefined

/-- JS truthiness of a possibly-undefined value (used for
`if (returnResults)`, src/main.js line 806). -/
def truthyJ : Option JVal → Bool
  | none => false
  | some .null => false
  | some .undefined => false
  | some (.str s) => !s.isEmpty
  | some (.obj _) => true
  | some (.arr _) => true

/-- Decoding of one raw counter entry into the flat sample object built by
`collectCounterData` (src/main.js lines 208-221, identically 192-205 per
array element): split `item.Name`, then build
`{host, object, instance, counter, value, cstatus}`.  The `.split` call on
`arr[1]` throws when only 0 or 1 non-empty segments exist. -/
def decodeEntry (name : List Char) (item : Option JVal) : Except Unit JVal :=
  match (splitName name).get? 1 with
  | none => .error ()
  | some seg =>
    match jsGet item "Value", jsGet item "CStatus" with
    | .ok valF, .ok cstF =>
      .ok (.obj [("host", strOfOpt ((splitName name).get? 0)),
                 ("object", strOfOpt ((splitInst seg).get? 0)),
                 ("instance", .str (String.mk (truthyGet ((splitInst seg).get? 1)))),
                 ("counter", strOfOpt ((splitName name).get? 2)),
                 ("value", valF.getD .undefined),
                 ("cstatus", cstF.getD .undefined)])
    | _, _ => .error ()

/-- One raw entry processed end to end: `item.Name` access, `.split`
(throws on a non-string `Name`), then `decodeEntry`. -/
def decodeItem (item : Option JVal) : Except Unit JVal :=
  match jsGet item "Name" with
  | .error _ => .error ()
  | .ok nameF =>
    match jsStr nameF with
    | .error _ => .error ()
    | .ok name => decodeEntry name item

/-- `returnResults.map(...)` over an array of raw entries (src/main.js lines
191-206); a throw on any element aborts the whole map. -/
def decodeItems : List JVal → Except Unit (List JVal)
  | [] => .ok []
  | item :: rest =>
    match decodeItem (some item) with
    | .error _ => .error ()
    | .ok s =>
      match decodeItems rest with
      | .error _ => .error ()
      | .ok ss => .ok (s :: ss)

/-- The value assigned to `errorResults.message` before rejecting:
a classified fault object, the bare HTTP status, a plain string, or a caught
exception (`catch (e)`). -/
inductive ErrMsg where
  | fault (faultcode : JVal) (faultstring : JVal)
  | status (n : Nat)
  | text (s : String)
  | exn


/-- How the promise returned by a Facade method settles. -/
inductive Settled where
  | resolve (payload : JVal)
  | reject (e : ErrMsg)


/-- Wrap a handler core (outer `Except` = a thrown exception caught by the
`try/catch`, inner = reject vs resolve) into the settled outcome. -/
def settle : Except Unit (Except ErrMsg JVal) → Settled
  | .error _ => .reject .exn
  | .ok (.error e) => .reject e
  | .ok (.ok p) => .resolve p

/-- Substring test `haystack` starts with `needle`. -/
def startsWithList : List Char → List Char → Bool
  | _, [] => true
  | [], _ :: _ => false
  | a :: as, b :: bs => (a = b) && startsWithList as bs

/-- JS `haystack.includes(needle)` on strings (substring containment). -/
def containsSub (hay needle : List Char) : Bool :=
  match hay with
  | [] => needle.isEmpty
  | _ :: rest => startsWithList hay needle || containsSub rest needle

/-- The `.includes`-based classification of a string faultcode
(src/main.js lines 232-237): `RateControl` and `generalException` are
normalized, any other code is passed through verbatim together with the
server's faultstring. -/
def faultClassify (fc : String) (fs : JVal) : ErrMsg :=
  if containsSub fc.data (chars "RateControl") then .fault (.str "RateControl") fs
  else if containsSub fc.data (chars "generalException") then .fault (.str "generalException") fs
  else .fault (.str fc) fs

/-- Classification step on the value of `output.Body.Fault`: reading
`faultcode` of `undefined`/`null` throws, `.includes` on a non-string
faultcode throws, otherwise the fault is classified. -/
def faultFromFv (fv : Option JVal) : Except Unit (Except ErrMsg JVal) :=
  match jsGet fv "faultcode" with
  | .error _ => .error ()
  | .ok fcF =>
    match fcF with
    | some (.str fc) =>
      match jsGet fv "faultstring" with
      | .error _ => .error ()
      | .ok fsF => .ok (.error (faultClassify fc (fsF.getD .undefined)))
    | _ => .error ()

/-- The `output.Body.Fault` access step of the fault branch. -/
def faultFromBody (b : Option JVal) : Except Unit (Except ErrMsg JVal) :=
  match jsGet b "Fault" with
  | .error _ => .error ()
  | .ok fv => faultFromFv fv

/-- The fault branch shared verbatim by every handler (src/main.js lines
230-244 and its copies): if a `Fault` key exists anywhere, read
`output.Body.Fault.faultcode` directly (which can throw when the fault is not
at that exact path), classify by `.includes`, and reject; otherwise reject
with the bare HTTP status. -/
def faultCore (status : Nat) (output : JVal) : Except Unit (Except ErrMsg JVal) :=
  if keyExists output "Fault" then
    match jsGet (some output) "Body" with
    | .error _ => .error ()
    | .ok b => faultFromBody b
  else
    .ok (.error (.status status))

/-- Response processing of `collectCounterData` (src/main.js lines 186-249):
deep-search for the response key, then the return key; on both present,
directly access `output.Body.perfmonCollectCounterDataResponse.
perfmonCollectCounterDataReturn`, decode it as an array or a single entry,
prune with `clean`, and resolve `{cookie, results}`; on a missing return key
resolve with the initial empty results; otherwise run the fault branch. -/
def collectCore (cookie : String) (status : Nat) (output : JVal) :
    Except Unit (Except ErrMsg JVal) :=
  if keyExists output "perfmonCollectCounterDataResponse" then
    if keyExists output "perfmonCollectCounterDataReturn" then
      match jsGet (some output) "Body" with
      | .error _ => .error ()
      | .ok b =>
        match jsGet b "perfmonCollectCounterDataResponse" with
        | .error _ => .error ()
        | .ok resp =>
          match jsGet resp "perfmonCollectCounterDataReturn" with
          | .error _ => .error ()
          | .ok ret =>
            match ret with
            | some (.arr items) =>
              match decodeItems items with
              | .error _ => .error ()
              | .ok samples =>
                .ok (.ok (.obj [("cookie", .str cookie),
                                ("results", cleanVal (.arr samples))]))
            | _ =>
              match decodeItem ret with
              | .error _ => .error ()
              | .ok s =>
                .ok (.ok (.obj [("cookie", .str cookie), ("results", cleanVal s)]))
    else
      .ok (.ok (.obj [("cookie", .str cookie), ("results", .str "")]))
  else
    faultCore status output

/-- The settled outcome of `collectCounterData` for a parsed response tree,
HTTP status, and optional `set-cookie` header
(`promiseResults.cookie = response.headers.get("set-cookie") ? ... : ""`,
src/main.js line 173). -/
def handleCollect (setCookie : Option String) (status : Nat) (output : JVal) : Settled :=
  settle (collectCore (setCookie.getD "") status output)

/-- Response processing of `addCounter` (src/main.js lines 780-833).  Note:
unlike `collectCounterData`, the handler never reads the `set-cookie` header;
`promiseResults.cookie` keeps its initial `""`. -/
def addCore (status : Nat) (output : JVal) : Except Unit (Except ErrMsg JVal) :=
  if keyExists output "perfmonAddCounterResponse" then
    match jsGet (some output) "Body" with
    | .error _ => .error ()
    | .ok b =>
      match jsGet b "perfmonAddCounterResponse" with
      | .error _ => .error ()
      | .ok ret =>
        if truthyJ ret then
          .ok (.ok (.obj [("cookie", .str ""), ("results", .str "success")]))
        else
          .ok (.error (.text "unknown"))
  else
    faultCore status output

/-- The settled outcome of `addCounter`; the `set-cookie` argument is what the
response carried, to document that the handler ignores it. -/
def handleAddCounter (_setCookie : Option String) (status : Nat) (output : JVal) : Settled :=
  settle (addCore status output)

/-- Response processing of `removeCounter` (src/main.js lines 876-929),
structurally identical to `addCore` with its own keys, also without cookie
extraction. -/
def removeCore (status : Nat) (output : JVal) : Except Unit (Except ErrMsg JVal) :=
  if keyExists output "perfmonRemoveCounterResponse" then
    match jsGet (some output) "Body" with
    | .error _ => .error ()
    | .ok b =>
      match jsGet b "perfmonRemoveCounterResponse" with
      | .error _ => .error ()
      | .ok ret =>
        if truthyJ ret then
          .ok (.ok (.obj [("cookie", .str ""), ("results", .str "success")]))
        else
          .ok (.error (.text "unknown"))
  else
    faultCore status output

/-- The settled outcome of `removeCounter`. -/
def handleRemoveCounter (_setCookie : Option String) (status : Nat) (output : JVal) : Settled :=
  settle (removeCore status output)

/-- Response processing of `listInstance` (src/main.js lines 526-558).  When
the cleaned return value is not an array, `promiseResults` is *reassigned* to
a fresh `{ results: [] }` object (line 532), so the resolved payload of the
single-bare-instance path has no `cookie` property at all. -/
def listInstanceCore (cookie : String) (status : Nat) (output : JVal) :
    Except Unit (Except ErrMsg JVal) :=
  if keyExists output "perfmonListInstanceResponse" then
    if keyExists output "perfmonListInstanceReturn" then
      match jsGet (some output) "Body" with
      | .error _ => .error ()
      | .ok b =>
        match jsGet b "perfmonListInstanceResponse" with
        | .error _ => .error ()
        | .ok resp =>
          match jsGet resp "perfmonListInstanceReturn" with
          | .error _ => .error ()
          | .ok ret =>
            match ret with
            | none => .error ()
            | some .null => .error ()
            | some v =>
              match cleanVal v with
              | .arr es =>
                .ok (.ok (.obj [("cookie", .str cookie), ("results", .arr es)]))
              | res =>
                .ok (.ok (.obj [("results", .arr [res])]))
    else
      .ok (.ok (.obj [("cookie", .str cookie), ("results", .str "")]))
  else
    faultCore status output

/-- The settled outcome of `listInstance`. -/
def handleListInstance (setCookie : Option String) (status : Nat) (output : JVal) : Settled :=
  settle (listInstanceCore (setCookie.getD "") status output)

/-- A well-formed single-entry success envelope for `collectCounterData`, as
produced by `parseXml` + `removeKeys` on a server response whose return
element carries `Name`/`Value`/`CStatus`. -/
def mkCollectEnvelope (name value cstatus : String) : JVal :=
  .obj [("Body", .obj [("perfmonCollectCounterDataResponse",
    .obj [("perfmonCollectCounterDataReturn",
      .obj [("Name", .str name), ("Value", .str value), ("CStatus", .str cstatus)])])])]

/-- The `retryOn` callback installed by the constructor (src/main.js lines
103-116).  `hasOptions` is the truthiness of the constructor's fourth
argument (`if (!options) return false`); `maxRetries` is
`parseInt(process.env.PERFMON_RETRIES)` or the default; `err` is the network
error (`error !== null`); when neither retry condition holds the JS function
returns `undefined`, which fetch-retry treats as no-retry (`false`).
The `delay(...)` promise created inside the retry branch is never awaited, so
it imposes no delay; it does not affect the returned decision. -/
def retryOn (hasOptions : Bool) (maxRetries attempt : Nat) (err : Option Unit)
    (status : Nat) : Bool :=
  if !hasOptions then false
  else if attempt > maxRetries then false
  else if err.isSome || status ≥ 400 then true
  else false

/-- `process.env.PERFMON_RETRIES ? parseInt(process.env.PERFMON_RETRIES) : 3`
(src/main.js line 107): configured maximum retry count, defaulting to 3. -/
def retryMax (envRetries : Option Nat) : Nat := envRetries.getD 3

/-- The mutable per-instance request configuration `this._OPTIONS`: the
fields written before each send (`options.SOAPAction = ...`,
`options.body = soapBody`).  Every method aliases the same object
(`var options = this._OPTIONS`, e.g. src/main.js lines 952-961). -/
structure ReqOptions where
  soapAction : String
  body : List Char
deriving DecidableEq

/-- The operation invocations modelled for the shared-options race: a
`queryCounterDescription` call with its counter, or a `listCounter` call with
its host. -/
inductive OpCall where
  | queryCounterDescription (c : CounterRef)
  | listCounter (host : List Char)
deriving DecidableEq

/-- The `SOAPAction` value each method writes into the shared options
(src/main.js lines 953, 396). -/
def soapActionOf : OpCall → String
  | .queryCounterDescription _ => "perfmonQueryCounterDescription"
  | .listCounter _ => "perfmonListCounter"

/-- Start of the XML_QUERY_COUNTER_ENVELOPE template (src/main.js lines
71-76), up to the `%s` placeholder. -/
def queryEnvelopePre : List Char :=
  chars ("<soapenv:Envelope xmlns:soapenv=\"http://schemas.xmlsoap.org/soap/envelope/\" xmlns:soap=\"http://schemas.cisco.com/ast/soap\">\n<soapenv:Header/>\n<soapenv:Body>\n   <soap:perfmonQueryCounterDescription>")

/-- End of XML_QUERY_COUNTER_ENVELOPE after the `%s` placeholder. -/
def queryEnvelopeSuf : List Char :=
  chars ("</soap:perfmonQueryCounterDescription>\n</soapenv:Body>\n</soapenv:Envelope>")

/-- Start of XML_LIST_COUNTER_ENVELOPE (src/main.js lines 45-52) up to `%s`. -/
def listCounterPre : List Char :=
  chars ("<soapenv:Envelope xmlns:soapenv=\"http://schemas.xmlsoap.org/soap/envelope/\" xmlns:soap=\"http://schemas.cisco.com/ast/soap\">\n<soapenv:Header/>\n<soapenv:Body>\n   <soap:perfmonListCounter>\n      <soap:Host>")

/-- End of XML_LIST_COUNTER_ENVELOPE after `%s`. -/
def listCounterSuf : List Char :=
  chars ("</soap:Host>\n   </soap:perfmonListCounter>\n</soapenv:Body>\n</soapenv:Envelope>")

/-- The request body each call formats (`util.format(template, ...)`):
`queryCounterDescription` substitutes
`"<soap:Counter>" + encodedPath + "</soap:Counter>"` (src/main.js lines
956-958); `listCounter` substitutes the host (line 399). -/
def envelopeOf : OpCall → List Char
  | .queryCounterDescription c =>
    queryEnvelopePre ++ (chars "<soap:Counter>" ++ encodePath c ++ chars "</soap:Counter>")
      ++ queryEnvelopeSuf
  | .listCounter h => listCounterPre ++ h ++ listCounterSuf

/-- The synchronous prepare phase of a call: in-place mutation of the shared
`this._OPTIONS` (`options.SOAPAction = ...; options.body = soapBody`),
overwriting whatever a concurrent call wrote. -/
def prepareCall (op : OpCall) (_shared : ReqOptions) : ReqOptions :=
  { soapAction := soapActionOf op, body := envelopeOf op }

/-- Event-loop interleaving events for concurrent calls on one Facade
instance: `prep i` is call `i` mutating the shared options, `send i` is the
transport (fetch, or a fetch-retry re-issue) reading the shared options for
call `i`'s outbound request. -/
inductive SchedEv where
  | prep (call : Nat)
  | send (call : Nat)

/-- Run an interleaving over the shared mutable options, recording for each
send which options value the outbound request for that call carries. -/
def runSchedule (ops : Nat → OpCall) : List SchedEv → ReqOptions → List (Nat × ReqOptions)
  | [], _ => []
  | .prep i :: rest, shared => runSchedule ops rest (prepareCall (ops i) shared)
  | .send i :: rest, shared => (i, shared) :: runSchedule ops rest shared

/-- One `<soap:Counter><soap:Name>...</soap:Name></soap:Counter>` fragment of
the ArrayOfCounter payload (src/main.js lines 767 and 769). -/
def counterFragment (c : CounterRef) : List Char :=
  chars "<soap:Counter>" ++ (chars "<soap:Name>" ++ (encodePath c
    ++ (chars "</soap:Name>" ++ chars "</soap:Counter>")))

/-- The `counter` argument of `addCounter` / `removeCounter`: a single
reference or an array (`Array.isArray(counter)` branches,
src/main.js lines 766-770). -/
inductive CounterArg where
  | single (c : CounterRef)
  | many (cs : List CounterRef)

/-- The `counterStr` accumulated for the ArrayOfCounter payload: the single
branch builds one fragment; the array branch starts from `""` and appends one
fragment per element with `+=` in order. -/
def counterStrArg : CounterArg → List Char
  | .single c => counterFragment c
  | .many cs => cs.foldl (fun acc c => acc ++ counterFragment c) []

/-- Start of XML_ADD_COUNTER_ENVELOPE (src/main.js lines 7-15) up to the
first `%s` (the session handle). -/
def addCounterPre : List Char :=
  chars ("<soapenv:Envelope xmlns:soapenv=\"http://schemas.xmlsoap.org/soap/envelope/\" xmlns:soap=\"http://schemas.cisco.com/ast/soap\">\n <soapenv:Header/>\n <soapenv:Body>\n    <soap:perfmonAddCounter>\n       <soap:SessionHandle>")

/-- Middle of XML_ADD_COUNTER_ENVELOPE between the two `%s` placeholders. -/
def addCounterMid : List Char :=
  chars ("</soap:SessionHandle>\n       <soap:ArrayOfCounter>")

/-- End of XML_ADD_COUNTER_ENVELOPE after the second `%s`. -/
def addCounterSuf : List Char :=
  chars ("</soap:ArrayOfCounter>\n    </soap:perfmonAddCounter>\n </soapenv:Body>\n</soapenv:Envelope>")

/-- `util.format(XML_ADD_COUNTER_ENVELOPE, sessionHandle, counterStr)`
(src/main.js line 772): the complete addCounter request body. -/
def addCounterBody (sessionHandle : List Char) (arg : CounterArg) : List Char :=
  addCounterPre ++ sessionHandle ++ addCounterMid ++ counterStrArg arg ++ addCounterSuf

/-- Start of XML_REMOVE_COUNTER_ENVELOPE (src/main.js lines 78-86) up to the
first `%s`. -/
def removeCounterPre : List Char :=
  chars ("<soapenv:Envelope xmlns:soapenv=\"http://schemas.xmlsoap.org/soap/envelope/\" xmlns:soap=\"http://schemas.cisco.com/ast/soap\">\n<soapenv:Header/>\n<soapenv:Body>\n   <soap:perfmonRemoveCounter>\n      <soap:SessionHandle>")

/-- Middle of XML_REMOVE_COUNTER_ENVELOPE between the two `%s` placeholders. -/
def removeCounterMid : List Char :=
  chars ("</soap:SessionHandle>\n      <soap:ArrayOfCounter>")

/-- End of XML_REMOVE_COUNTER_ENVELOPE after the second `%s`. -/
def removeCounterSuf : List Char :=
  chars ("</soap:ArrayOfCounter>\n   </soap:perfmonRemoveCounter>\n</soapenv:Body>\n</soapenv:Envelope>")

/-- `util.format(XML_REMOVE_COUNTER_ENVELOPE, sessionHandle, counterStr)`
(src/main.js line 868): the complete removeCounter request body. -/
def removeCounterBody (sessionHandle : List Char) (arg : CounterArg) : List Char :=
  removeCounterPre ++ sessionHandle ++ removeCounterMid ++ counterStrArg arg ++ removeCounterSuf

/-- Identifiers visible inside the outer `.catch((error) => ...)` callback of
`collectCounterData` (src/main.js lines 251-254): its own parameter, the
promise-executor parameters, the method-body `var`s, the method parameters,
and the module scope.  `promiseResults` and `errorResults` are NOT here: they
are `var`s of the sibling `.then(async (response) => ...)` function scope
(lines 163-171). -/
def catchScope : List String :=
  ["error", "resolve", "reject", "XML", "options", "server", "soapBody",
   "host", "object", "fetch", "util", "parseString", "stripPrefix",
   "perfMonService", "readChunks", "keyExists", "removeKeys", "clean",
   "parseXml", "module", "require", "global", "process", "Buffer",
   "Promise", "setTimeout"]

/-- Resolution of a free identifier: unbound identifiers throw a
ReferenceError carrying the name. -/
def lookupId (env : List String) (x : String) : Except String Unit :=
  if x ∈ env then .ok () else .error x

/-- The statements of the `.catch` callback, abstracted to the identifier
references they perform. -/
inductive JsStmt where
  | assignMember (obj member source : String)
  | callFn (fn arg : String)

/-- `errorResults.message = error; reject(errorResults);`
(src/main.js lines 252-253). -/
def catchHandlerBody : List JsStmt :=
  [.assignMember "errorResults" "message" "error", .callFn "reject" "errorResults"]

/-- Run the statement list, tracking whether `reject` has been invoked; an
unbound identifier aborts the handler with a ReferenceError (the promise
executor then never settles the promise). -/
def runStmts (env : List String) (rejectCalled : Bool) : List JsStmt → Except String Bool
  | [] => .ok rejectCalled
  | .assignMember o _ s :: rest =>
    match lookupId env o with
    | .error e => .error e
    | .ok _ =>
      match lookupId env s with
      | .error e => .error e
      | .ok _ => runStmts env rejectCalled rest
  | .callFn f a :: rest =>
    match lookupId env f, lookupId env a with
    | .ok _, .ok _ => runStmts env true rest
    | .error e, _ => .error e
    | .ok _, .error e => .error e

/-- Whether the promise returned by `collectCounterData` settles when the
fetch fails with a network error: it settles exactly if the `.catch` handler
reaches its `reject(...)` call without throwing. -/
def networkFailureSettles : Bool :=
  match runStmts catchScope false catchHandlerBody with
  | .ok b => b
  | .error _ => false

theorem not_isEmpty_of_ne_nil {l : List Char} (h : l ≠ []) : l.isEmpty = false := by
  cases l with
  | nil => exact absurd rfl h
  | cons a t => rfl

theorem isBackslash_false {c : Char} (h : c ≠ '\\') : isBackslash c = false := by
  simp [isBackslash, h]

theorem isParen_false {c : Char} (h1 : c ≠ '(') (h2 : c ≠ ')') : isParen c = false := by
  simp [isParen, h1, h2]

theorem splitP_cons_sep (p : Char → Bool) (c : Char) (rest : List Char) (h : p c = true) :
    splitP p (c :: rest) = [] :: splitP p rest := by
  simp [splitP, h]

theorem splitP_ne_nil (p : Char → Bool) (l : List Char) : splitP p l ≠ [] := by
  induction l with
  | nil => simp [splitP]
  | cons c rest ih =>
    simp only [splitP]
    split
    · simp
    · cases h : splitP p rest with
      | nil => simp
      | cons s ss => simp

theorem splitP_no_sep (p : Char → Bool) (l : List Char) (h : ∀ c ∈ l, p c = false) :
    splitP p l = [l] := by
  induction l with
  | nil => rfl
  | cons c rest ih =>
    have hc : p c = false := h c (List.mem_cons_self c rest)
    have hr := ih (fun x hx => h x (List.mem_cons_of_mem c hx))
    simp [splitP, hc, hr]

theorem splitP_append_sep (p : Char → Bool) (a : List Char) (d : Char) (b : List Char)
    (ha : ∀ c ∈ a, p c = false) (hd : p d = true) :
    splitP p (a ++ d :: b) = a :: splitP p b := by
  induction a with
  | nil => simpa using splitP_cons_sep p d b hd
  | cons c a ih =>
    have hc : p c = false := ha c (List.mem_cons_self c a)
    have hr := ih (fun x hx => ha x (List.mem_cons_of_mem c hx))
    simp only [List.cons_append, splitP, hc, Bool.false_eq_true, if_false, List.append_eq, hr]

/-- C1: counter path codec round trip — for a CounterReference whose host,
object and counter are non-empty and contain no backslash or parenthesis, and
whose (possibly empty) instance contains no backslash or parenthesis, the
decoder of `collectCounterData` applied to the encoded path
`\\host\object(instance)\counter` recovers exactly the original four fields,
with a missing instance normalized to the empty string. -/
theorem claim1_roundtrip (r : CounterRef)
    (hh : r.host ≠ []) (ho : r.object ≠ []) (hc : r.counter ≠ [])
    (hhch : ∀ c ∈ r.host, c ≠ '\\' ∧ c ≠ '(' ∧ c ≠ ')')
    (hoch : ∀ c ∈ r.object, c ≠ '\\' ∧ c ≠ '(' ∧ c ≠ ')')
    (hich : ∀ c ∈ r.inst, c ≠ '\\' ∧ c ≠ '(' ∧ c ≠ ')')
    (hcch : ∀ c ∈ r.counter, c ≠ '\\' ∧ c ≠ '(' ∧ c ≠ ')') :
    decodeName (encodePath r) =
      some { host := some r.host, object := some r.object,
             inst := r.inst, counter := some r.counter } := by
  have hbsh : ∀ c ∈ r.host, isBackslash c = false :=
    fun c hm => isBackslash_false (hhch c hm).1
  have hbsc : ∀ c ∈ r.counter, isBackslash c = false :=
    fun c hm => isBackslash_false (hcch c hm).1
  have hobj_ne : objInstOf r ≠ [] := by
    unfold objInstOf
    split
    · exact ho
    · cases hobj : r.object with
      | nil => exact absurd hobj ho
      | cons x t => simp
  have hbso : ∀ c ∈ objInstOf r, isBackslash c = false := by
    unfold objInstOf
    split
    · exact fun c hm => isBackslash_false (hoch c hm).1
    · intro c hm
      rcases List.mem_append.mp hm with hm | hm
      · exact isBackslash_false (hoch c hm).1
      · rcases List.mem_cons.mp hm with rfl | hm
        · decide
        · rcases List.mem_append.mp hm with hm | hm
          · exact isBackslash_false (hich c hm).1
          · rcases List.mem_singleton.mp hm with rfl
            decide
  have hsplit : splitP isBackslash (encodePath r) =
      [[], [], r.host, objInstOf r, r.counter] := by
    unfold encodePath
    rw [splitP_cons_sep _ _ _ (by decide), splitP_cons_sep _ _ _ (by decide),
      splitP_append_sep _ _ _ _ hbsh (by decide),
      splitP_append_sep _ _ _ _ hbso (by decide),
      splitP_no_sep _ _ hbsc]
  have hsn : splitName (encodePath r) = [r.host, objInstOf r, r.counter] := by
    rw [splitName, hsplit]
    simp [List.filter_cons, not_isEmpty_of_ne_nil hh, not_isEmpty_of_ne_nil hobj_ne,
      not_isEmpty_of_ne_nil hc]
  by_cases hinst : r.inst = []
  · have hoe : objInstOf r = r.object := by
      unfold objInstOf
      rw [if_pos (by simp [hinst])]
    have hpo : ∀ c ∈ r.object, isParen c = false :=
      fun c hm => isParen_false (hoch c hm).2.1 (hoch c hm).2.2
    have hsi : splitInst (objInstOf r) = [r.object] := by
      rw [hoe, splitInst, splitP_no_sep _ _ hpo]
      simp [List.filter_cons, not_isEmpty_of_ne_nil ho]
    simp [decodeName, hsn, hsi, truthyGet, hinst]
  · have hoe : objInstOf r = r.object ++ '(' :: (r.inst ++ [')']) := by
      unfold objInstOf
      rw [if_neg (by simp [hinst])]
    have hpo : ∀ c ∈ r.object, isParen c = false :=
      fun c hm => isParen_false (hoch c hm).2.1 (hoch c hm).2.2
    have hpi : ∀ c ∈ r.inst, isParen c = false :=
      fun c hm => isParen_false (hich c hm).2.1 (hich c hm).2.2
    have hsi : splitInst (objInstOf r) = [r.object, r.inst] := by
      rw [hoe, splitInst, splitP_append_sep _ _ _ _ hpo (by decide),
        splitP_append_sep _ _ _ _ hpi (by decide)]
      simp [splitP, List.filter_cons, not_isEmpty_of_ne_nil ho, not_isEmpty_of_ne_nil hinst]
    simp [decodeName, hsn, hsi, truthyGet, not_isEmpty_of_ne_nil hinst]

/-- Witness for C1 at a concrete reference with a non-empty instance. -/
theorem claim1_roundtrip_witness :
    decodeName (encodePath ⟨chars "hq-cucm-pub", chars "Processor", chars "0",
        chars "PctCPUTime"⟩) =
      some { host := some (chars "hq-cucm-pub"), object := some (chars "Processor"),
             inst := chars "0", counter := some (chars "PctCPUTime") } :=
  claim1_roundtrip ⟨chars "hq-cucm-pub", chars "Processor", chars "0", chars "PctCPUTime"⟩
    (by decide) (by decide) (by decide) (by decide) (by decide) (by decide) (by decide)

theorem handleCollect_mk (sc : Option String) (status : Nat) (name value cstatus : String) :
    handleCollect sc status (mkCollectEnvelope name value cstatus) =
      settle (match decodeEntry name.data
          (some (.obj [("Name", .str name), ("Value", .str value),
                       ("CStatus", .str cstatus)])) with
        | .error _ => .error ()
        | .ok s => .ok (.ok (.obj [("cookie", .str (sc.getD "")),
                                   ("results", cleanVal s)]))) := rfl

theorem decodeEntry_two (name : List Char) (item : Option JVal) (a b : List Char)
    (hs : splitName name = [a, b]) (valF cstF : Option JVal)
    (hv : jsGet item "Value" = .ok valF) (hc : jsGet item "CStatus" = .ok cstF) :
    decodeEntry name item = .ok (.obj [("host", .str (String.mk a)),
      ("object", strOfOpt ((splitInst b).get? 0)),
      ("instance", .str (String.mk (truthyGet ((splitInst b).get? 1)))),
      ("counter", .undefined),
      ("value", valF.getD .undefined), ("cstatus", cstF.getD .undefined)]) := by
  simp only [decodeEntry, hs, hv, hc, List.get?_cons_succ, List.get?_cons_zero,
    List.get?_nil, strOfOpt]

/-- C2 counterexample: the path `\\h\O` yields only 2 non-empty segments
(fewer than 3), yet `collectCounterData` resolves successfully with a sample
whose `counter` field is silently removed by `clean` — it does not reject. -/
theorem claim2_counterexample :
    (splitName (chars "\\\\h\\O")).length < 3 ∧
    handleCollect none 200 (mkCollectEnvelope "\\\\h\\O" "5" "1") =
      .resolve (.obj [("cookie", .str ""), ("results",
        .obj [("host", .str "h"), ("object", .str "O"), ("instance", .str ""),
              ("value", .str "5"), ("cstatus", .str "1")])]) := by
  exact ⟨by decide, rfl⟩

/-- C2 amended: for a success envelope carrying a counter path, if the split
yields fewer than 2 non-empty segments the decode throws (`arr[1]` is
undefined) and the operation rejects with the caught exception; if it yields
exactly 2 non-empty segments the operation resolves with a sample object that
has no `counter` field (the undefined field is pruned by `clean`); only with
3 or more segments can a full sample be produced. -/
theorem claim2_amended (sc : Option String) (status : Nat) (name value cstatus : String) :
    ((splitName name.data).length < 2 →
      handleCollect sc status (mkCollectEnvelope name value cstatus) = .reject .exn)
    ∧ ((splitName name.data).length = 2 →
      ∃ fields, handleCollect sc status (mkCollectEnvelope name value cstatus) =
          .resolve (.obj [("cookie", .str (sc.getD "")), ("results", .obj fields)])
        ∧ keOwn fields "counter" = false) := by
  constructor
  · intro h
    have hget : (splitName name.data).get? 1 = none :=
      List.get?_eq_none.mpr (by omega)
    rw [handleCollect_mk]
    simp only [decodeEntry, hget]
    rfl
  · intro h
    rcases List.length_eq_two.mp h with ⟨a, b, hab⟩
    rw [handleCollect_mk, decodeEntry_two name.data
      (some (.obj [("Name", .str name), ("Value", .str value), ("CStatus", .str cstatus)]))
      a b hab (some (.str value)) (some (.str cstatus)) rfl rfl]
    rcases hobj : (splitInst b).get? 0 with _ | o
    · exact ⟨[("host", .str (String.mk a)),
        ("instance", .str (String.mk (truthyGet ((splitInst b).get? 1)))),
        ("value", .str value), ("cstatus", .str cstatus)], rfl, rfl⟩
    · exact ⟨[("host", .str (String.mk a)), ("object", .str (String.mk o)),
        ("instance", .str (String.mk (truthyGet ((splitInst b).get? 1)))),
        ("value", .str value), ("cstatus", .str cstatus)], rfl, rfl⟩

/-- Witness for C2 amended: the one-segment path `\h` makes the operation
reject with the caught TypeError. -/
theorem claim2_amended_witness :
    (splitName (chars "\\\\h")).length < 2 ∧
    handleCollect none 200 (mkCollectEnvelope "\\\\h" "5" "1") = .reject .exn :=
  ⟨by decide, (claim2_amended none 200 "\\\\h" "5" "1").1 (by decide)⟩

/-- A parsed response whose Body carries both a well-formed
`perfmonCollectCounterDataResponse` and a `Fault` structure whose faultcode
contains `RateControl`. -/
def bothKeysEnvelope : JVal :=
  .obj [("Body", .obj [
    ("perfmonCollectCounterDataResponse", .obj [("perfmonCollectCounterDataReturn",
       .obj [("Name", .str "\\\\h\\CPU\\Busy"), ("Value", .str "7"),
             ("CStatus", .str "1")])]),
    ("Fault", .obj [("faultcode", .str "soap:Server.RateControl"),
                    ("faultstring", .str "rate limit exceeded")])])]

/-- C4 counterexample: a parsed response that contains a Fault structure with
faultcode containing `RateControl` but also contains the operation's Response
key resolves successfully — the handler checks the Response key first and
never looks at the Fault, so the claim's "in all cases it rejects" fails. -/
theorem claim4_counterexample :
    keyExists bothKeysEnvelope "Fault" = true ∧
    containsSub (chars "soap:Server.RateControl") (chars "RateControl") = true ∧
    handleCollect none 500 bothKeysEnvelope =
      .resolve (.obj [("cookie", .str ""), ("results",
        .obj [("host", .str "h"), ("object", .str "CPU"), ("instance", .str ""),
              ("counter", .str "Busy"), ("value", .str "7"),
              ("cstatus", .str "1")])]) :=
  ⟨rfl, rfl, rfl⟩

/-- C4 amended: for every parsed response that does NOT contain the
operation's Response key and whose `Body.Fault` is directly accessible with a
string faultcode, the operation rejects — with faultcode `RateControl` plus
the server's faultstring when the code contains `RateControl`, with
`generalException` plus the faultstring when it contains `generalException`,
and with the literal faultcode and faultstring passed through unchanged
otherwise; it never resolves in this situation. -/
theorem claim4_amended (sc : Option String) (status : Nat) (output : JVal)
    (b fv : Option JVal) (fc : String) (fsF : Option JVal)
    (h1 : keyExists output "perfmonCollectCounterDataResponse" = false)
    (h2 : keyExists output "Fault" = true)
    (h3 : jsGet (some output) "Body" = .ok b)
    (h4 : jsGet b "Fault" = .ok fv)
    (h5 : jsGet fv "faultcode" = .ok (some (.str fc)))
    (h6 : jsGet fv "faultstring" = .ok fsF) :
    handleCollect sc status output = .reject (.fault
      (if containsSub fc.data (chars "RateControl") then .str "RateControl"
       else if containsSub fc.data (chars "generalException") then .str "generalException"
       else .str fc)
      (fsF.getD .undefined)) := by
  unfold handleCollect collectCore
  rw [h1]
  show settle (faultCore status output) = _
  unfold faultCore
  rw [h2, h3]
  show settle (faultFromBody b) = _
  unfold faultFromBody
  rw [h4]
  show settle (faultFromFv fv) = _
  unfold faultFromFv
  rw [h5]
  show settle (match jsGet fv "faultstring" with
    | .error _ => .error ()
    | .ok fsF => .ok (.error (faultClassify fc (fsF.getD .undefined)))) = _
  rw [h6]
  show Settled.reject (faultClassify fc (fsF.getD .undefined)) = _
  by_cases hc1 : containsSub fc.data (chars "RateControl") = true
  · simp [faultClassify, hc1]
  · by_cases hc2 : containsSub fc.data (chars "generalException") = true
    · simp [faultClassify, hc1, hc2]
    · simp [faultClassify, hc1, hc2]

/-- The fault-only response used as the concrete witness input for C4. -/
def faultEnvelope : JVal :=
  .obj [("Body", .obj [("Fault",
    .obj [("faultcode", .str "soap:Server.RateControl"),
          ("faultstring", .str "exceeded allowed rate")])])]

/-- Witness for C4 amended at a RateControl fault response. -/
theorem claim4_amended_witness :
    keyExists faultEnvelope "perfmonCollectCounterDataResponse" = false ∧
    keyExists faultEnvelope "Fault" = true ∧
    handleCollect none 500 faultEnvelope =
      .reject (.fault (.str "RateControl") (.str "exceeded allowed rate")) := by
  refine ⟨rfl, rfl, ?_⟩
  have h := claim4_amended none 500 faultEnvelope
    (some (.obj [("Fault", .obj [("faultcode", .str "soap:Server.RateControl"),
      ("faultstring", .str "exceeded allowed rate")])]))
    (some (.obj [("faultcode", .str "soap:Server.RateControl"),
      ("faultstring", .str "exceeded allowed rate")]))
    "soap:Server.RateControl" (some (.str "exceeded allowed rate"))
    rfl rfl rfl rfl rfl rfl
  exact h

/-- C5: for every parsed response tree that contains the operation's Response
key but lacks the operation-specific Return key, `collectCounterData`
resolves successfully with empty results (and the extracted cookie); it never
rejects for this shape. -/
theorem claim5_missing_return_key (sc : Option String) (status : Nat) (output : JVal)
    (h1 : keyExists output "perfmonCollectCounterDataResponse" = true)
    (h2 : keyExists output "perfmonCollectCounterDataReturn" = false) :
    handleCollect sc status output =
      .resolve (.obj [("cookie", .str (sc.getD "")), ("results", .str "")]) := by
  unfold handleCollect collectCore
  rw [h1, h2]
  rfl

/-- Witness for C5 at a concrete envelope whose Response element is empty. -/
theorem claim5_missing_return_key_witness :
    keyExists (JVal.obj [("Body", .obj [("perfmonCollectCounterDataResponse", .str "")])])
      "perfmonCollectCounterDataResponse" = true ∧
    keyExists (JVal.obj [("Body", .obj [("perfmonCollectCounterDataResponse", .str "")])])
      "perfmonCollectCounterDataReturn" = false ∧
    handleCollect (some "JSESSIONIDSSO=token") 200
      (JVal.obj [("Body", .obj [("perfmonCollectCounterDataResponse", .str "")])]) =
      .resolve (.obj [("cookie", .str "JSESSIONIDSSO=token"), ("results", .str "")]) :=
  ⟨rfl, rfl, claim5_missing_return_key (some "JSESSIONIDSSO=token") 200
    (JVal.obj [("Body", .obj [("perfmonCollectCounterDataResponse", .str "")])]) rfl rfl⟩

/-- Concrete counter reference used in the concurrency scenarios. -/
def refA : CounterRef := ⟨chars "host1", chars "Processor", chars "0", chars "PctCPUTime"⟩

/-- Second concrete counter reference used in the concurrency scenarios. -/
def refB : CounterRef := ⟨chars "host2", chars "Memory", [], chars "UsedKBytes"⟩

set_option maxRecDepth 40000 in
/-- C3: the shared-options race evaluated at a failing interleaving.  Call 1
(`queryCounterDescription refA`) and call 2 run their synchronous prepare
phases before call 1's transport (a fetch-retry re-issue) reads the shared
`this._OPTIONS`; call 1's outbound request then carries call 2's body — and,
when call 2 is a different operation (`listCounter`), call 2's SOAPAction
header as well.  Per-call request configuration is not an independent
value. -/
theorem claim3_shared_options_race :
    (runSchedule
        (fun i => if i = 1 then .queryCounterDescription refA
                  else .queryCounterDescription refB)
        [.prep 1, .prep 2, .send 1, .send 2] ⟨"", []⟩ =
      [(1, ⟨"perfmonQueryCounterDescription", envelopeOf (.queryCounterDescription refB)⟩),
       (2, ⟨"perfmonQueryCounterDescription", envelopeOf (.queryCounterDescription refB)⟩)])
    ∧ envelopeOf (.queryCounterDescription refB) ≠ envelopeOf (.queryCounterDescription refA)
    ∧ (runSchedule
        (fun i => if i = 1 then .queryCounterDescription refA
                  else .listCounter (chars "host2"))
        [.prep 1, .prep 2, .send 1, .send 2] ⟨"", []⟩ =
      [(1, ⟨"perfmonListCounter", envelopeOf (.listCounter (chars "host2"))⟩),
       (2, ⟨"perfmonListCounter", envelopeOf (.listCounter (chars "host2"))⟩)])
    ∧ soapActionOf (.listCounter (chars "host2"))
        ≠ soapActionOf (.queryCounterDescription refA) :=
  ⟨rfl, by decide, rfl, by decide⟩

/-- C6 counterexample: with no constructor `options` argument, a request that
fails with a network error on its first attempt (well within the default
maximum of 3) is NOT retried — `retryOn` returns false unconditionally, so
"retries exactly when a network error occurred or status >= 400" fails. -/
theorem claim6_counterexample :
    retryOn false (retryMax none) 0 (some ()) 200 = false ∧ retryMax none = 3 :=
  ⟨rfl, rfl⟩

/-- C6 amended: when the Facade was constructed with an options argument, an
attempt is retried exactly when a network error occurred or the HTTP status
is at least 400, while the attempt count does not exceed the configured
maximum (default 3); when constructed without options, no retry ever occurs.
(The configured inter-attempt delay promise is created but never awaited, so
no delay is actually enforced; timing is outside this model.) -/
theorem claim6_amended (maxRetries attempt status : Nat) (err : Option Unit) :
    (retryOn true maxRetries attempt err status = true ↔
      attempt ≤ maxRetries ∧ (err ≠ none ∨ 400 ≤ status))
    ∧ retryOn false maxRetries attempt err status = false
    ∧ retryMax none = 3 := by
  refine ⟨?_, rfl, rfl⟩
  show (if attempt > maxRetries then false
    else if err.isSome || decide (400 ≤ status) then true else false) = true ↔ _
  by_cases h1 : attempt > maxRetries
  · rw [if_pos h1]
    simp only [Bool.false_eq_true, false_iff]
    rintro ⟨hle, _⟩
    omega
  · rw [if_neg h1]
    by_cases h2 : (err.isSome || decide (400 ≤ status)) = true
    · rw [if_pos h2]
      simp only [true_iff]
      refine ⟨by omega, ?_⟩
      rcases (by simpa using h2 : err.isSome = true ∨ 400 ≤ status) with h3 | h3
      · left
        intro hn
        rw [hn] at h3
        simp at h3
      · right
        exact h3
    · rw [if_neg h2]
      simp only [Bool.false_eq_true, false_iff]
      rintro ⟨hle, hor⟩
      apply h2
      rcases hor with hn | hs
      · rcases herr : err with _ | u
        · exact absurd herr hn
        · simp
      · simp [hs]

/-- A success envelope for `addCounter`. -/
def addSuccessEnvelope : JVal :=
  .obj [("Body", .obj [("perfmonAddCounterResponse", .str "ok")])]

/-- A success envelope for `removeCounter`. -/
def removeSuccessEnvelope : JVal :=
  .obj [("Body", .obj [("perfmonRemoveCounterResponse", .str "ok")])]

/-- A `listInstance` success envelope whose return value is a single bare
instance record rather than an array. -/
def listInstanceBareEnvelope : JVal :=
  .obj [("Body", .obj [("perfmonListInstanceResponse",
    .obj [("perfmonListInstanceReturn", .obj [("Name", .str "_Total")])])])]

/-- C7 evaluated at the failing inputs: although every response here carries
`set-cookie: JSESSIONIDSSO=abc`, `addCounter` and `removeCounter` resolve
with an empty cookie field (they never read the header), and the
single-bare-instance path of `listInstance` resolves with a payload that has
no cookie field at all (the reassigned `{results: [...]}` object). -/
theorem claim7_cookie_dropped :
    handleAddCounter (some "JSESSIONIDSSO=abc") 200 addSuccessEnvelope =
      .resolve (.obj [("cookie", .str ""), ("results", .str "success")])
    ∧ handleRemoveCounter (some "JSESSIONIDSSO=abc") 200 removeSuccessEnvelope =
      .resolve (.obj [("cookie", .str ""), ("results", .str "success")])
    ∧ handleListInstance (some "JSESSIONIDSSO=abc") 200 listInstanceBareEnvelope =
      .resolve (.obj [("results", .arr [.obj [("Name", .str "_Total")]])])
    ∧ keOwn [("results", JVal.arr [.obj [("Name", .str "_Total")]])] "cookie" = false :=
  ⟨rfl, rfl, rfl, rfl⟩

/-- C8 evaluated at the failing path: when fetch rejects with a network
error, the `.catch` handler references `errorResults`, which is not in any
enclosing scope of that callback (it is a `var` of the sibling `.then`
async-function scope); the handler throws a ReferenceError before reaching
`reject(...)`, so the promise returned to the caller never settles. -/
theorem claim8_unbound_error_variable :
    ("errorResults" ∈ catchScope) = False
    ∧ runStmts catchScope false catchHandlerBody = .error "errorResults"
    ∧ networkFailureSettles = false := by
  refine ⟨by simp [catchScope], rfl, rfl⟩

/-- C10: for every session handle and every single counter reference `r`,
`addCounter(handle, r)` builds exactly the same ArrayOfCounter fragment
sequence — hence an identical request body — as `addCounter(handle, [r])`,
and likewise for `removeCounter`. -/
theorem claim10_single_array_payload (handle : List Char) (c : CounterRef) :
    counterStrArg (.single c) = counterStrArg (.many [c])
    ∧ addCounterBody handle (.single c) = addCounterBody handle (.many [c])
    ∧ removeCounterBody handle (.single c) = removeCounterBody handle (.many [c]) :=
  ⟨rfl, rfl, rfl⟩

theorem spliceAux_no_rem (todo : List JVal) (i : Nat) (s : List JVal)
    (h : ∀ w ∈ todo, isRemovable w = false) : spliceAux todo i s = s := by
  induction todo generalizing i s with
  | nil => rfl
  | cons w rest ih =>
    have hw : isRemovable w = false := h w (List.mem_cons_self w rest)
    simp only [spliceAux, hw, Bool.false_eq_true, if_false]
    exact ih (i + 1) s (fun x hx => h x (List.mem_cons_of_mem w hx))

theorem spliceAux_append (pre rest : List JVal) (i : Nat) (s : List JVal)
    (h : ∀ w ∈ pre, isRemovable w = false) :
    spliceAux (pre ++ rest) i s = spliceAux rest (i + pre.length) s := by
  induction pre generalizing i with
  | nil => simp
  | cons w pre ih =>
    have hw : isRemovable w = false := h w (List.mem_cons_self w pre)
    simp only [List.cons_append, spliceAux, hw, Bool.false_eq_true, if_false,
      List.append_eq]
    rw [ih (i + 1) (fun x hx => h x (List.mem_cons_of_mem w hx)), List.length_cons]
    congr 1
    omega

theorem eraseIdx_mid (a b : List JVal) (r : JVal) :
    (a ++ r :: b).eraseIdx a.length = a ++ b := by
  induction a with
  | nil => rfl
  | cons x a ih =>
    simp only [List.cons_append, List.length_cons, List.eraseIdx, List.append_eq]
    rw [ih]

theorem spliceRun_no_rem (ws : List JVal) (h : ∀ w ∈ ws, isRemovable w = false) :
    spliceRun ws = ws :=
  spliceAux_no_rem ws 0 ws h

theorem spliceRun_single (a : List JVal) (r : JVal) (b : List JVal)
    (ha : ∀ w ∈ a, isRemovable w = false) (hr : isRemovable r = true)
    (hb : ∀ w ∈ b, isRemovable w = false) :
    spliceRun (a ++ r :: b) = a ++ b := by
  unfold spliceRun
  rw [spliceAux_append a (r :: b) 0 (a ++ r :: b) ha]
  simp only [spliceAux, hr, if_true, Nat.zero_add]
  rw [eraseIdx_mid]
  exact spliceAux_no_rem b (a.length + 1) (a ++ b) hb

theorem countP_one_decomp (p : JVal → Bool) (l : List JVal) (h : l.countP p = 1) :
    ∃ a r b, l = a ++ r :: b ∧ p r = true ∧ (∀ w ∈ a, p w = false)
      ∧ (∀ w ∈ b, p w = false) := by
  induction l with
  | nil => simp [List.countP_nil] at h
  | cons x xs ih =>
    rw [List.countP_cons] at h
    by_cases hx : p x = true
    · have hall : ∀ w ∈ xs, p w = false := by
        simp [hx] at h
        exact h
      exact ⟨[], x, xs, rfl, hx, by simp, hall⟩
    · have hx0 : p x = false := by simpa using hx
      have hxs : xs.countP p = 1 := by
        simp [hx0] at h
        omega
      rcases ih hxs with ⟨a, r, b, hsplit, hr, hA, hB⟩
      refine ⟨x :: a, r, b, by simp [hsplit], hr, ?_, hB⟩
      intro w hw
      rcases List.mem_cons.mp hw with rfl | hw
      · exact hx0
      · exact hA w hw

theorem spliceRun_le_one (ws : List JVal) (h : ws.countP isRemovable ≤ 1) :
    spliceRun ws = ws.filter (fun w => !isRemovable w) := by
  rcases Nat.le_one_iff_eq_zero_or_eq_one.mp h with h0 | h1
  · have hall : ∀ w ∈ ws, isRemovable w = false := by
      intro w hw
      simpa using List.countP_eq_zero.mp h0 w hw
    rw [spliceRun_no_rem ws hall, List.filter_eq_self.mpr]
    intro w hw
    simp [hall w hw]
  · rcases countP_one_decomp _ _ h1 with ⟨a, r, b, rfl, hr, hA, hB⟩
    rw [spliceRun_single a r b hA hr hB]
    rw [List.filter_append, List.filter_cons]
    simp only [hr, Bool.not_true, Bool.false_eq_true, if_false]
    rw [List.filter_eq_self.mpr (fun w hw => by simp [hA w hw]),
        List.filter_eq_self.mpr (fun w hw => by simp [hB w hw])]

theorem cleanElems_fixed (l : List JVal) (h : ∀ w ∈ l, cleanVal w = w) :
    cleanElems l = l := by
  induction l with
  | nil => rfl
  | cons v rest ih =>
    simp only [cleanElems]
    rw [h v (List.mem_cons_self v rest), ih (fun w hw => h w (List.mem_cons_of_mem v hw))]

mutual
theorem cleanVal_idem_aux : ∀ v : JVal, good v = true → cleanVal (cleanVal v) = cleanVal v
  | .str _, _ => rfl
  | .null, _ => rfl
  | .undefined, _ => rfl
  | .obj fields, h => by
    have hf : goodF fields = true := by simpa [good] using h
    show JVal.obj (cleanFields (cleanFields fields)) = JVal.obj (cleanFields fields)
    rw [cleanFields_idem_aux fields hf]
  | .arr elems, h => by
    have h2 : goodE elems = true ∧ (cleanElems elems).countP isRemovable ≤ 1 := by
      simpa [good] using h
    have hfix := cleanElems_fix_aux elems h2.1
    have hsf := spliceRun_le_one (cleanElems elems) h2.2
    have hfix2 : ∀ w ∈ spliceRun (cleanElems elems), cleanVal w = w := by
      rw [hsf]
      intro w hw
      exact hfix w (List.mem_of_mem_filter hw)
    have hnorem : ∀ w ∈ spliceRun (cleanElems elems), isRemovable w = false := by
      rw [hsf]
      intro w hw
      simpa using List.of_mem_filter hw
    show JVal.arr (spliceRun (cleanElems (spliceRun (cleanElems elems))))
        = JVal.arr (spliceRun (cleanElems elems))
    rw [cleanElems_fixed _ hfix2, spliceRun_no_rem _ hnorem]
theorem cleanFields_idem_aux : ∀ fs : List (String × JVal), goodF fs = true →
    cleanFields (cleanFields fs) = cleanFields fs
  | [], _ => rfl
  | (k, v) :: rest, h => by
    have hv : good v = true := by
      simp [goodF] at h
      exact h.1
    have hr : goodF rest = true := by
      simp [goodF] at h
      exact h.2
    by_cases hrem : isRemovable (cleanVal v) = true
    · simp only [cleanFields, hrem, if_true]
      exact cleanFields_idem_aux rest hr
    · have hrem0 : isRemovable (cleanVal v) = false := by simpa using hrem
      simp only [cleanFields, hrem0, Bool.false_eq_true, if_false]
      simp only [cleanFields, cleanVal_idem_aux v hv, hrem0, Bool.false_eq_true, if_false]
      rw [cleanFields_idem_aux rest hr]
theorem cleanElems_fix_aux : ∀ es : List JVal, goodE es = true →
    ∀ w ∈ cleanElems es, cleanVal w = w
  | [], _ => by simp [cleanElems]
  | v :: rest, h => by
    have hv : good v = true := by
      simp [goodE] at h
      exact h.1
    have hr : goodE rest = true := by
      simp [goodE] at h
      exact h.2
    intro w hw
    simp only [cleanElems, List.mem_cons] at hw
    rcases hw with rfl | hw
    · exact cleanVal_idem_aux v hv
    · exact cleanElems_fix_aux rest hr w hw
end

/-- C9 counterexample: the array `[null, null]` (two consecutive removable
elements) cleans to `[null]` — the snapshot index of the second entry is
stale after the first splice — and cleaning again yields `[]`, so
`clean(clean(x))` differs from `clean(x)`. -/
theorem claim9_counterexample :
    cleanVal (.arr [.null, .null]) = .arr [.null]
    ∧ cleanVal (cleanVal (.arr [.null, .null])) = .arr []
    ∧ cleanVal (cleanVal (.arr [.null, .null])) ≠ cleanVal (.arr [.null, .null]) := by
  refine ⟨rfl, rfl, ?_⟩
  intro hEq
  have h1 : (JVal.arr []) = (JVal.arr [JVal.null]) := hEq
  injection h1 with h2
  simp at h2

/-- C9 amended: the empty-field pruning `clean` is idempotent on every value
tree in which each array contains at most one element whose cleaned value is
removable (null, undefined, empty object or empty array); with two or more
removable elements in one array the stale splice indices break idempotence,
as the counterexample shows. -/
theorem claim9_amended_idempotent (v : JVal) (h : good v = true) :
    cleanVal (cleanVal v) = cleanVal v :=
  cleanVal_idem_aux v h

/-- Witness for C9 amended on a tree with one removable array element (an
object that cleans to empty). -/
theorem claim9_amended_idempotent_witness :
    good (JVal.arr [.obj [("a", .null)], .str "x"]) = true
    ∧ cleanVal (cleanVal (JVal.arr [.obj [("a", .null)], .str "x"]))
        = cleanVal (JVal.arr [.obj [("a", .null)], .str "x"]) :=
  ⟨rfl, claim9_amended_idempotent (JVal.arr [.obj [("a", .null)], .str "x"]) rfl⟩
